import Mathlib

/-!
# simple-proxy: the relay handler of `proxy.go`

A shallow embedding of `userHandler`, `errResponse`, `getUser` and
`addCORSHeaders`, together with models of the Go library calls they make
(`path.Base`, `strconv.Atoi`, `url.URL.String`, `http.StatusText`,
`http.ResponseWriter`, `encoding/json`).

Go strings are Lean strings; Go `int` is a Lean `Int` (64-bit range where the
range matters, namely in `Atoi`).
-/

set_option autoImplicit false

deriving instance DecidableEq for Except

namespace SimpleProxy

/-! ## `path.Base` -/

/-- The loop `for len(path) > 0 && path[len(path)-1] == '/'` of `path.Base`:
drops every trailing slash. -/
def stripTrailingSlashes (cs : List Char) : List Char :=
  (cs.reverse.dropWhile (fun c => c == '/')).reverse

/-- The step `if i := LastIndexByte(path, '/'); i >= 0 { path = path[i+1:] }`
of `path.Base`: what follows the last slash (everything when there is none). -/
def afterLastSlash (cs : List Char) : List Char :=
  (cs.reverse.takeWhile (fun c => c != '/')).reverse

/-- Go `path.Base`: the last element of a slash-separated path. The empty
path gives ".", a path of slashes only gives "/". -/
def Base (path : String) : String :=
  match path.data with
  | [] => "."
  | cs =>
    match afterLastSlash (stripTrailingSlashes cs) with
    | [] => "/"
    | last => String.mk last

/-! ## `strconv.Atoi` (64-bit `int`) -/

/-- The `Err` field of a `*strconv.NumError`. -/
inductive NumError where
  | ErrSyntax
  | ErrRange
  deriving DecidableEq, Repr

/-- The constant `maxUint64`. -/
def maxUint64 : Nat := 2 ^ 64 - 1

/-- The loop of `strconv.ParseUint(s, 10, 64)` over the remaining characters,
`n` being the value accumulated so far: a character that is not a decimal
digit is a syntax error, a value that leaves the `uint64` range is a range
error (`cutoff = maxUint64/10 + 1`). -/
def parseUintLoop : List Char → Nat → Except NumError Nat
  | [], n => .ok n
  | c :: rest, n =>
    if '0' ≤ c ∧ c ≤ '9' then
      if n ≥ maxUint64 / 10 + 1 then .error .ErrRange
      else
        let n1 := n * 10 + (c.toNat - '0'.toNat)
        if n1 > maxUint64 then .error .ErrRange
        else parseUintLoop rest n1
    else .error .ErrSyntax

/-- Go `strconv.ParseUint(s, 10, 64)` on the characters of `s`. -/
def ParseUint (cs : List Char) : Except NumError Nat :=
  match cs with
  | [] => .error .ErrSyntax
  | _ => parseUintLoop cs 0

/-- Go `strconv.ParseInt(s, 10, 0)` with a 64-bit `int`: an optional sign, then
`ParseUint`; the magnitude must fit `int64`. -/
def ParseInt (s : String) : Except NumError Int :=
  match s.data with
  | [] => .error .ErrSyntax
  | c :: rest =>
    let neg := c == '-'
    let digits := if c == '+' ∨ c == '-' then rest else c :: rest
    match ParseUint digits with
    | .error .ErrSyntax => .error .ErrSyntax
    | .error .ErrRange => .error .ErrRange
    | .ok un =>
      if ¬ neg ∧ un ≥ 2 ^ 63 then .error .ErrRange
      else if neg ∧ un > 2 ^ 63 then .error .ErrRange
      else .ok (if neg then - (un : Int) else (un : Int))

/-- Go `strconv.Atoi`. Its fast path (fewer than 19 bytes: sign, then digits)
computes what `ParseInt(s, 10, 0)` computes, so one definition serves both. -/
def Atoi (s : String) : Except NumError Int := ParseInt s

/-! ## `url.URL.String` -/

/-- The parts of a `url.URL` that `String()` prints, each as it is printed:
`User` is the rendered userinfo, `Host` the escaped host, `EscapedPath` what
`u.EscapedPath()` returns and `EscapedFragment` what `u.EscapedFragment()`
returns. A request in origin form (`GET /users/1?x=y`) has a path, possibly a
query, and nothing else. -/
structure URL where
  Scheme : String := ""
  Opaque : String := ""
  User : Option String := none
  Host : String := ""
  EscapedPath : String := ""
  OmitHost : Bool := false
  ForceQuery : Bool := false
  RawQuery : String := ""
  EscapedFragment : String := ""

/-- The first segment of a path: `segment, _, _ := strings.Cut(path, "/")`. -/
def firstSegment (cs : List Char) : List Char :=
  cs.takeWhile (fun c => c != '/')

/-- The authority and path part of `URL.String()`, taken when `Opaque` is
empty; `buf` is what has been written so far (the scheme and its colon). -/
def URL.hierPart (u : URL) (buf : List Char) : List Char :=
  let path := u.EscapedPath.data
  let buf :=
    if u.Scheme.data ≠ [] ∨ u.Host.data ≠ [] ∨ u.User.isSome then
      if u.OmitHost ∧ u.Host.data = [] ∧ u.User.isNone then buf
      else
        let buf :=
          if u.Host.data ≠ [] ∨ path ≠ [] ∨ u.User.isSome then buf ++ ['/', '/'] else buf
        let buf :=
          match u.User with
          | some ui => buf ++ ui.data ++ ['@']
          | none => buf
        buf ++ u.Host.data
    else buf
  let buf :=
    if path ≠ [] ∧ path.head? ≠ some '/' ∧ u.Host.data ≠ [] then buf ++ ['/'] else buf
  let buf :=
    if buf = [] ∧ ':' ∈ firstSegment path then buf ++ ['.', '/'] else buf
  buf ++ path

/-- Go `(*url.URL).String()`: scheme, then the opaque part or
`//userinfo@host/path`, then `?query` and `#fragment`. -/
def URL.String (u : URL) : String :=
  let buf := if u.Scheme.data ≠ [] then u.Scheme.data ++ [':'] else []
  let buf := if u.Opaque.data ≠ [] then buf ++ u.Opaque.data else u.hierPart buf
  let buf :=
    if u.ForceQuery ∨ u.RawQuery.data ≠ [] then buf ++ ['?'] ++ u.RawQuery.data else buf
  let buf :=
    if u.EscapedFragment.data ≠ [] then buf ++ ['#'] ++ u.EscapedFragment.data else buf
  String.mk buf

/-! ## `http.StatusText` -/

/-- Go `http.StatusText`: the reason phrase of a status code, empty when the
code is unknown. -/
def StatusText (code : Int) : String :=
  match code with
  | 100 => "Continue"
  | 101 => "Switching Protocols"
  | 102 => "Processing"
  | 103 => "Early Hints"
  | 200 => "OK"
  | 201 => "Created"
  | 202 => "Accepted"
  | 203 => "Non-Authoritative Information"
  | 204 => "No Content"
  | 205 => "Reset Content"
  | 206 => "Partial Content"
  | 207 => "Multi-Status"
  | 208 => "Already Reported"
  | 226 => "IM Used"
  | 300 => "Multiple Choices"
  | 301 => "Moved Permanently"
  | 302 => "Found"
  | 303 => "See Other"
  | 304 => "Not Modified"
  | 305 => "Use Proxy"
  | 307 => "Temporary Redirect"
  | 308 => "Permanent Redirect"
  | 400 => "Bad Request"
  | 401 => "Unauthorized"
  | 402 => "Payment Required"
  | 403 => "Forbidden"
  | 404 => "Not Found"
  | 405 => "Method Not Allowed"
  | 406 => "Not Acceptable"
  | 407 => "Proxy Authentication Required"
  | 408 => "Request Timeout"
  | 409 => "Conflict"
  | 410 => "Gone"
  | 411 => "Length Required"
  | 412 => "Precondition Failed"
  | 413 => "Request Entity Too Large"
  | 414 => "Request URI Too Long"
  | 415 => "Unsupported Media Type"
  | 416 => "Requested Range Not Satisfiable"
  | 417 => "Expectation Failed"
  | 418 => "I\x27m a teapot"
  | 421 => "Misdirected Request"
  | 422 => "Unprocessable Entity"
  | 423 => "Locked"
  | 424 => "Failed Dependency"
  | 425 => "Too Early"
  | 426 => "Upgrade Required"
  | 428 => "Precondition Required"
  | 429 => "Too Many Requests"
  | 431 => "Request Header Fields Too Large"
  | 451 => "Unavailable For Legal Reasons"
  | 500 => "Internal Server Error"
  | 501 => "Not Implemented"
  | 502 => "Bad Gateway"
  | 503 => "Service Unavailable"
  | 504 => "Gateway Timeout"
  | 505 => "HTTP Version Not Supported"
  | 506 => "Variant Also Negotiates"
  | 507 => "Insufficient Storage"
  | 508 => "Loop Detected"
  | 510 => "Not Extended"
  | 511 => "Network Authentication Required"
  | _ => ""

/-! ## Errors -/

/-- Go `error` values as this program meets them. The package variable
`errUserNotFound` is one value, told apart by identity (`err == errUserNotFound`);
every other error (made by `errors.New`, returned by `http.Get` or by the JSON
decoder) is a different value, whatever its text. -/
inductive GoError where
  | errUserNotFound
  | other (msg : String)
  deriving DecidableEq, Repr

/-- The method `Error()`; `errUserNotFound = errors.New("user not found")`. -/
def GoError.Error : GoError → String
  | .errUserNotFound => "user not found"
  | .other msg => msg

/-- Go `errors.New`: a fresh error value carrying `text`. -/
def errorsNew (text : String) : GoError := .other text

/-! ## JSON values -/

/-- A JSON document. A number keeps its literal text. -/
inductive JSON where
  | null
  | bool (b : Bool)
  | number (lit : String)
  | string (s : String)
  | array (elems : List JSON)
  | object (members : List (String × JSON))

/-- The name `encoding/json` gives the kind of a value in an
`UnmarshalTypeError`. -/
def JSON.kind : JSON → String
  | .null => "null"
  | .bool _ => "bool"
  | .number _ => "number"
  | .string _ => "string"
  | .array _ => "array"
  | .object _ => "object"

/-- The record `User` of `proxy.go`. -/
structure User where
  Email : String
  Name : String
  deriving DecidableEq, Repr

/-- What `json.NewEncoder(w).Encode(user)` writes: the fields in declaration
order under their `json` tags. -/
def User.toJSON (u : User) : JSON :=
  .object [("email", .string u.Email), ("name", .string u.Name)]

/-- The anonymous struct `body` of `errResponse`. -/
structure ErrorBody where
  Error : String
  StatusCode : Int
  deriving DecidableEq, Repr

/-- What `json.NewEncoder(w).Encode(body)` writes for the error body. -/
def ErrorBody.toJSON (b : ErrorBody) : JSON :=
  .object [("error", .string b.Error), ("status_code", .number (toString b.StatusCode))]

/-! ## Decoding a `User` (`encoding/json`) -/

/-- The two fields of `User`. -/
inductive Field where
  | Email
  | Name
  deriving DecidableEq, Repr

/-- The `json` tag of a field. -/
def Field.tag : Field → String
  | .Email => "email"
  | .Name => "name"

/-- The case folding `encoding/json` applies to an object key before it looks
for a field: ASCII letters are upper-cased. (Its two non-ASCII folds, onto
`K` and `S`, touch neither "email" nor "name".) -/
def foldName (key : String) : List Char := key.data.map Char.toUpper

/-- The field an object key names: an exact match with a tag first, a match
up to case next, none otherwise. -/
def fieldOf (key : String) : Option Field :=
  if key = "email" then some .Email
  else if key = "name" then some .Name
  else if foldName key = ['E', 'M', 'A', 'I', 'L'] then some .Email
  else if foldName key = ['N', 'A', 'M', 'E'] then some .Name
  else none

/-- Assignment to a field of `User`. -/
def User.set (u : User) (f : Field) (s : String) : User :=
  match f with
  | .Email => { u with Email := s }
  | .Name => { u with Name := s }

/-- Storing a JSON value into a string field: a string is stored, `null`
leaves the field as it is, any other value is an `UnmarshalTypeError`. -/
def storeField (u : User) (f : Field) (v : JSON) : User × Option GoError :=
  match v with
  | .string s => (u.set f s, none)
  | .null => (u, none)
  | other =>
    (u, some (.other ("json: cannot unmarshal " ++ other.kind ++
      " into Go struct field User." ++ f.tag ++ " of type string")))

/-- The decoder working through the members of an object in order: a member
whose key names no field is skipped, a later member overwrites an earlier
one, and the first error is the one kept (`saveError`). -/
def decodeMembers : List (String × JSON) → User → Option GoError → User × Option GoError
  | [], u, saved => (u, saved)
  | (key, v) :: rest, u, saved =>
    match fieldOf key with
    | none => decodeMembers rest u saved
    | some f =>
      let r := storeField u f v
      decodeMembers rest r.1 (match saved with | some e => some e | none => r.2)

/-- Unmarshalling a JSON value into `u`: `null` changes nothing, an object is
decoded member by member, anything else is an `UnmarshalTypeError`. -/
def unmarshalUser (v : JSON) (u : User) : User × Option GoError :=
  match v with
  | .null => (u, none)
  | .object members => decodeMembers members u none
  | other =>
    (u, some (.other ("json: cannot unmarshal " ++ other.kind ++
      " into Go value of type main.User")))

/-- The call `json.NewDecoder(resp.Body).Decode(&u)` on `var u User`. The body
is given by what reading its first JSON value yields: the value, or the
message of the read or syntax error (`EOF` for an empty body). -/
def decodeUser (body : Except String JSON) : Except GoError User :=
  match body with
  | .error msg => .error (.other msg)
  | .ok v =>
    match unmarshalUser v { Email := "", Name := "" } with
    | (u, none) => .ok u
    | (_, some err) => .error err

/-! ## `http.ResponseWriter` -/

/-- A header map on which only `Set` is used: one value per key. The keys this
program sets are already in canonical form. -/
def headerSet : List (String × String) → String → String → List (String × String)
  | [], key, value => [(key, value)]
  | (k, v) :: rest, key, value =>
    if k = key then (key, value) :: rest else (k, v) :: headerSet rest key value

/-- The state of an `http.ResponseWriter`, as an in-memory recorder whose
`Write` always succeeds. `header` is the map `w.Header()` returns;
`WriteHeader` sends a copy of it, kept in `sentHeader`, and what is set in
`header` afterwards is not sent. `body` lists the JSON documents written. -/
structure ResponseWriter where
  header : List (String × String) := []
  wroteHeader : Bool := false
  status : Int := 0
  sentHeader : List (String × String) := []
  body : List JSON := []

/-- The call `w.Header().Set(key, value)`. -/
def ResponseWriter.SetHeader (w : ResponseWriter) (key value : String) : ResponseWriter :=
  { w with header := headerSet w.header key value }

/-- The call `w.WriteHeader(code)` for a final status code: the first call
fixes the status and the headers sent, a later call is ignored. -/
def ResponseWriter.WriteHeader (w : ResponseWriter) (code : Int) : ResponseWriter :=
  if w.wroteHeader then w
  else { w with wroteHeader := true, status := code, sentHeader := w.header }

/-- The call `json.NewEncoder(w).Encode(v)`: one `Write` of the document, which
sends the header with status 200 first when none was sent. -/
def ResponseWriter.Encode (w : ResponseWriter) (v : JSON) : ResponseWriter :=
  let w := if w.wroteHeader then w else w.WriteHeader 200
  { w with body := w.body ++ [v] }

/-- The response a client receives. -/
structure Response where
  StatusCode : Int
  Header : List (String × String)
  Body : List JSON

/-- The response once the handler has returned: when the handler never wrote
the header the server sends it then, with status 200 and the headers set. -/
def ResponseWriter.finish (w : ResponseWriter) : Response :=
  if w.wroteHeader then { StatusCode := w.status, Header := w.sentHeader, Body := w.body }
  else { StatusCode := 200, Header := w.header, Body := w.body }

/-! ## The program -/

/-- The constant `usersEndpointURL`. -/
def usersEndpointURL : String := "https://jsonplaceholder.typicode.com/users"

/-- What `http.Get` hands back on success, as far as `getUser` looks at it. -/
structure UpstreamResponse where
  StatusCode : Int
  Body : Except String JSON

/-- The behaviour of `http.Get`: for a URL, the message of the transport error
or the upstream response. -/
abbrev HTTPGet := String → Except String UpstreamResponse

/-- The request fields `userHandler` reads. -/
structure Request where
  Method : String
  URL : URL

/-- The function `addCORSHeaders`. -/
def addCORSHeaders (w : ResponseWriter) : ResponseWriter :=
  let w := w.SetHeader "Access-Control-Allow-Origin" "*"
  let w := w.SetHeader "Access-Control-Allow-Methods" "GET, OPTIONS"
  w.SetHeader "Access-Control-Allow-Headers"
    (", ".intercalate ["Accept", "Accept-Encoding", "Content-Type", "Content-Length"])

/-- The function `errResponse`: the status is written first, the content type
is set after that, then the body is encoded. -/
def errResponse (w : ResponseWriter) (e : GoError) (statusCode : Int) : ResponseWriter :=
  let body : ErrorBody := { Error := e.Error, StatusCode := statusCode }
  let w := w.WriteHeader statusCode
  let w := w.SetHeader "Content-Type" "application/json"
  w.Encode body.toJSON

/-- The function `getUser`. Beside its result it returns the URLs it has
passed to `http.Get`. -/
def getUser (httpGet : HTTPGet) (id : Int) : Except GoError User × List String :=
  let url := usersEndpointURL ++ "/" ++ toString id
  match httpGet url with
  | .error msg => (.error (.other msg), [url])
  | .ok resp =>
    if resp.StatusCode = 404 then (.error .errUserNotFound, [url])
    else
      match decodeUser resp.Body with
      | .error err => (.error err, [url])
      | .ok u => (.ok u, [url])

/-- The function `userHandler`. It returns the writer as the handler leaves it
and the URLs fetched from the upstream on the way. -/
def userHandler (httpGet : HTTPGet) (w : ResponseWriter) (r : Request) :
    ResponseWriter × List String :=
  if r.Method = "GET" then
    match Atoi (Base r.URL.String) with
    | .error _ => (errResponse w (errorsNew (StatusText 404)) 404, [])
    | .ok id =>
      match getUser httpGet id with
      | (.error err, fetched) =>
        let status : Int := if err = .errUserNotFound then 404 else 500
        (errResponse w err status, fetched)
      | (.ok user, fetched) =>
        let w := addCORSHeaders w
        let w := w.SetHeader "Content-Type" "application/json"
        (w.Encode user.toJSON, fetched)
  else if r.Method = "OPTIONS" then (addCORSHeaders w, [])
  else (errResponse w (errorsNew (StatusText 405)) 405, [])

/-- One request served: `userHandler` on a fresh writer, the response the
client receives and the URLs fetched from the upstream. -/
def serve (httpGet : HTTPGet) (r : Request) : Response × List String :=
  let out := userHandler httpGet {} r
  (out.1.finish, out.2)


/-! ## Vocabulary of the claims -/

/-- The three headers `addCORSHeaders` sets. -/
def corsHeaders : List (String × String) :=
  [("Access-Control-Allow-Origin", "*"),
   ("Access-Control-Allow-Methods", "GET, OPTIONS"),
   ("Access-Control-Allow-Headers", "Accept, Accept-Encoding, Content-Type, Content-Length")]

/-- A header map carries the three CORS headers with the values of the program. -/
def carriesCORS (h : List (String × String)) : Prop :=
  ∀ kv ∈ corsHeaders, kv ∈ h

/-- A header map carries at least one header under a CORS key. -/
def carriesSomeCORS (h : List (String × String)) : Prop :=
  ∃ kv ∈ h, kv.1 ∈ corsHeaders.map Prod.fst

/-- The URL `getUser` fetches for `id`. -/
def userURL (id : Int) : String := usersEndpointURL ++ "/" ++ toString id

/-- The value of a field of `User`. -/
def User.get (u : User) : Field → String
  | .Email => u.Email
  | .Name => u.Name

/-- An object carries the string `s` for field `f`: at least one member names
`f`, and every member that names `f` holds the string `s`. -/
def carries (members : List (String × JSON)) (f : Field) (s : String) : Prop :=
  (∃ m ∈ members, fieldOf m.1 = some f) ∧
  ∀ m ∈ members, fieldOf m.1 = some f → m.2 = .string s

/-! ## Inputs used in the examples -/

/-- An upstream that answers every URL with status 200 and the user `A`. -/
def upstreamA : HTTPGet := fun _ =>
  .ok { StatusCode := 200,
        Body := .ok (.object [("email", .string "a@b.com"), ("name", .string "A")]) }

/-- The request `method target` in origin form: a path and nothing else. -/
def requestFor (method path : String) : Request :=
  { Method := method, URL := { EscapedPath := path } }

/-- An upstream that answers every URL with status 404 and, as body, the
JSON object of user `A`. -/
def upstream404WithUser : HTTPGet := fun _ =>
  .ok { StatusCode := 404,
        Body := .ok (.object [("email", .string "a@b.com"), ("name", .string "A")]) }

/-- An upstream that answers every URL with status 404 and an empty object. -/
def upstream404 : HTTPGet := fun _ =>
  .ok { StatusCode := 404, Body := .ok (.object []) }

/-- An upstream that cannot be reached. -/
def upstreamDown : HTTPGet := fun _ => .error "dial tcp: connection refused"

/-- An upstream that answers every URL with status 500 and an object that has
a name and no email. -/
def upstream500NameOnly : HTTPGet := fun _ =>
  .ok { StatusCode := 500, Body := .ok (.object [("id", .number "7"), ("name", .string "A")]) }

/-- The request `GET /users/1?x=y`. -/
def getUser1WithQuery : Request :=
  { Method := "GET", URL := { EscapedPath := "/users/1", RawQuery := "x=y" } }

/-! ## Lemmas -/

/-- Sample values of the library models, as Go computes them. -/
theorem library_model_samples :
    Base "/users/abc/5" = "5" ∧ Base "/users/" = "users" ∧ Base "" = "." ∧ Base "///" = "/" ∧
    Atoi "5" = .ok 5 ∧ Atoi "-5" = .ok (-5) ∧ Atoi "+" = .error .ErrSyntax ∧
    Atoi "users" = .error .ErrSyntax ∧
    Atoi "9223372036854775807" = .ok 9223372036854775807 ∧
    Atoi "9223372036854775808" = .error .ErrRange ∧
    Atoi "-9223372036854775808" = .ok (-9223372036854775808) ∧
    URL.String { EscapedPath := "/users/1", RawQuery := "x=y" } = "/users/1?x=y" ∧
    URL.String { Scheme := "http", Host := "h", EscapedPath := "/users/1" } = "http://h/users/1" := by
  decide

/-- A URL that is the path `/users/{suffix}` alone prints as that path. -/
theorem URL_String_users_path (suffix : String) :
    URL.String { EscapedPath := "/users/" ++ suffix } = "/users/" ++ suffix := by
  have hd : ("/users/" ++ suffix).data =
      '/' :: ('u' :: 's' :: 'e' :: 'r' :: 's' :: '/' :: suffix.data) := by
    rw [String.data_append]; rfl
  apply String.ext
  simp [URL.String, URL.hierPart, firstSegment, hd]

/-- The reason phrase of 404. -/
theorem StatusText_404 : StatusText 404 = "Not Found" := by rfl

/-- The reason phrase of 405. -/
theorem StatusText_405 : StatusText 405 = "Method Not Allowed" := by rfl

/-- The decimal text of 404. -/
theorem toString_404 : toString (404 : Int) = "404" := by rfl

/-- What `errResponse` sends on a fresh writer: the status, no header, the envelope. -/
theorem errResponse_fresh (e : GoError) (code : Int) :
    (errResponse {} e code).finish =
      { StatusCode := code, Header := [],
        Body := [.object [("error", .string e.Error), ("status_code", .number (toString code))]] } := by
  simp [errResponse, ResponseWriter.WriteHeader, ResponseWriter.SetHeader, ResponseWriter.Encode,
    ResponseWriter.finish, ErrorBody.toJSON]

/-- On a fresh writer `addCORSHeaders` leaves the three CORS headers in the map. -/
theorem addCORSHeaders_fresh :
    addCORSHeaders {} = { header := corsHeaders } := by
  rfl

/-- The OPTIONS branch of `userHandler`. -/
theorem userHandler_options (httpGet : HTTPGet) (r : Request) (h : r.Method = "OPTIONS") :
    userHandler httpGet {} r = ({ header := corsHeaders }, []) := by
  have hne : ¬ ("OPTIONS" = "GET") := by decide
  simp [userHandler, h, hne, addCORSHeaders_fresh]

/-- The default branch of the method switch. -/
theorem serve_other_method (httpGet : HTTPGet) (r : Request)
    (h1 : r.Method ≠ "GET") (h2 : r.Method ≠ "OPTIONS") :
    serve httpGet r = ((errResponse {} (errorsNew "Method Not Allowed") 405).finish, []) := by
  simp [serve, userHandler, h1, h2, StatusText_405]

/-- The GET branch when the id does not parse. -/
theorem serve_get_unparsable (httpGet : HTTPGet) (r : Request) (e : NumError)
    (hm : r.Method = "GET") (h : Atoi (Base r.URL.String) = .error e) :
    serve httpGet r = ((errResponse {} (errorsNew "Not Found") 404).finish, []) := by
  simp [serve, userHandler, hm, h, StatusText_404]

/-- The GET branch when `getUser` returns an error. -/
theorem serve_get_lookup_error (httpGet : HTTPGet) (r : Request) (id : Int) (err : GoError)
    (fetched : List String)
    (hm : r.Method = "GET") (hid : Atoi (Base r.URL.String) = .ok id)
    (hg : getUser httpGet id = (.error err, fetched)) :
    serve httpGet r =
      ((errResponse {} err (if err = .errUserNotFound then 404 else 500)).finish, fetched) := by
  simp [serve, userHandler, hm, hid, hg]

/-- The GET branch when `getUser` returns a user. -/
theorem serve_get_user (httpGet : HTTPGet) (r : Request) (id : Int) (u : User)
    (fetched : List String)
    (hm : r.Method = "GET") (hid : Atoi (Base r.URL.String) = .ok id)
    (hg : getUser httpGet id = (.ok u, fetched)) :
    serve httpGet r =
      ({ StatusCode := 200,
         Header := corsHeaders ++ [("Content-Type", "application/json")],
         Body := [u.toJSON] }, fetched) := by
  have hct : headerSet corsHeaders "Content-Type" "application/json" =
      corsHeaders ++ [("Content-Type", "application/json")] := by decide
  simp [serve, userHandler, hm, hid, hg, addCORSHeaders_fresh, ResponseWriter.SetHeader,
    ResponseWriter.Encode, ResponseWriter.WriteHeader, ResponseWriter.finish, hct]

/-- An error of `storeField` is not `errUserNotFound`. -/
theorem storeField_error_other (u : User) (f : Field) (v : JSON) (e : GoError)
    (h : (storeField u f v).2 = some e) : e ≠ .errUserNotFound := by
  cases v <;> simp [storeField] at h <;> subst h <;> simp

/-- An error of `decodeMembers` is not `errUserNotFound`, unless one was passed in. -/
theorem decodeMembers_error_other (members : List (String × JSON)) :
    ∀ (u : User) (saved : Option GoError),
      (∀ e, saved = some e → e ≠ .errUserNotFound) →
      ∀ e, (decodeMembers members u saved).2 = some e → e ≠ .errUserNotFound := by
  induction members with
  | nil => intro u saved hs e h; exact hs e (by simpa [decodeMembers] using h)
  | cons m rest ih =>
    intro u saved hs e h
    obtain ⟨key, v⟩ := m
    cases hf : fieldOf key with
    | none =>
      simp only [decodeMembers, hf] at h
      exact ih u saved hs e h
    | some f =>
      simp only [decodeMembers, hf] at h
      refine ih _ _ ?_ e h
      intro e1 he1
      cases saved with
      | some e0 => simp only at he1; exact hs e1 he1
      | none => simp only at he1; exact storeField_error_other u f v e1 he1

/-- An error of `decodeUser` is not `errUserNotFound`. -/
theorem decodeUser_error_other (body : Except String JSON) (err : GoError)
    (h : decodeUser body = .error err) : err ≠ .errUserNotFound := by
  cases body with
  | error msg =>
    simp [decodeUser] at h; subst h; simp
  | ok v =>
    have key : ∀ e, (unmarshalUser v { Email := "", Name := "" }).2 = some e →
        e ≠ .errUserNotFound := by
      intro e he
      cases v with
      | object members =>
        exact decodeMembers_error_other members _ none (by simp) e (by simpa [unmarshalUser] using he)
      | null => simp [unmarshalUser] at he
      | bool b => simp [unmarshalUser] at he; subst he; simp
      | number lit => simp [unmarshalUser] at he; subst he; simp
      | string s => simp [unmarshalUser] at he; subst he; simp
      | array elems => simp [unmarshalUser] at he; subst he; simp
    simp only [decodeUser] at h
    rcases hr : unmarshalUser v { Email := "", Name := "" } with ⟨u, _ | e⟩
    · rw [hr] at h; simp at h
    · rw [hr] at h
      simp only [Except.error.injEq] at h
      subst h
      exact key e (by rw [hr])

/-- A field that no member names keeps its value. -/
theorem decodeMembers_unnamed (f : Field) (members : List (String × JSON)) :
    ∀ (u : User) (saved : Option GoError),
      (∀ m ∈ members, fieldOf m.1 ≠ some f) →
      (decodeMembers members u saved).1.get f = u.get f := by
  induction members with
  | nil => intro u saved _; simp [decodeMembers]
  | cons m rest ih =>
    intro u saved hno
    obtain ⟨key, v⟩ := m
    have hrest : ∀ m ∈ rest, fieldOf m.1 ≠ some f := fun m hm => hno m (List.mem_cons_of_mem _ hm)
    have hkey : fieldOf key ≠ some f := hno (key, v) (List.mem_cons_self _ _)
    cases hf : fieldOf key with
    | none =>
      simp only [decodeMembers, hf]
      exact ih u saved hrest
    | some g =>
      have hg : g ≠ f := fun hgf => hkey (by rw [hf, hgf])
      simp only [decodeMembers, hf]
      rw [ih _ _ hrest]
      cases v <;> cases g <;> cases f <;> simp_all [storeField, User.set, User.get]

/-- Members that hold strings wherever they name a field decode without error. -/
theorem decodeMembers_no_error (members : List (String × JSON)) :
    ∀ (u : User),
      (∀ m ∈ members, ∀ f, fieldOf m.1 = some f → ∃ s, m.2 = .string s) →
      (decodeMembers members u none).2 = none := by
  induction members with
  | nil => intro u _; simp [decodeMembers]
  | cons m rest ih =>
    intro u hall
    obtain ⟨key, v⟩ := m
    have hrest : ∀ m ∈ rest, ∀ f, fieldOf m.1 = some f → ∃ s, m.2 = .string s :=
      fun m hm => hall m (List.mem_cons_of_mem _ hm)
    cases hf : fieldOf key with
    | none =>
      simp only [decodeMembers, hf]
      exact ih u hrest
    | some g =>
      obtain ⟨s, hs⟩ := hall (key, v) (List.mem_cons_self _ _) g hf
      simp only at hs
      subst hs
      simp only [decodeMembers, hf, storeField]
      exact ih _ hrest

/-- A field carried by the members ends with the carried string. -/
theorem decodeMembers_get (f : Field) (s : String) (members : List (String × JSON)) :
    (∃ m ∈ members, fieldOf m.1 = some f) →
    (∀ m ∈ members, fieldOf m.1 = some f → m.2 = .string s) →
    ∀ (u : User) (saved : Option GoError), (decodeMembers members u saved).1.get f = s := by
  induction members with
  | nil => intro hex; obtain ⟨m, hm, _⟩ := hex; cases hm
  | cons m rest ih =>
    intro hex hall u saved
    obtain ⟨key, v⟩ := m
    have hrest : ∀ m ∈ rest, fieldOf m.1 = some f → m.2 = .string s :=
      fun m hm => hall m (List.mem_cons_of_mem _ hm)
    by_cases hlater : ∃ m ∈ rest, fieldOf m.1 = some f
    · cases hf : fieldOf key with
      | none => simp only [decodeMembers, hf]; exact ih hlater hrest u saved
      | some g => simp only [decodeMembers, hf]; exact ih hlater hrest _ _
    · have hnone : ∀ m ∈ rest, fieldOf m.1 ≠ some f := fun m hm hmf => hlater ⟨m, hm, hmf⟩
      have hkey : fieldOf key = some f := by
        obtain ⟨m, hm, hmf⟩ := hex
        rcases List.mem_cons.mp hm with h | h
        · subst h; exact hmf
        · exact absurd hmf (hnone m h)
      have hv : v = .string s := hall (key, v) (List.mem_cons_self _ _) hkey
      subst hv
      simp only [decodeMembers, hkey, storeField]
      rw [decodeMembers_unnamed f rest _ _ hnone]
      cases f <;> simp [User.set, User.get]

/-- An object carrying email `e` and name `n` decodes to that user. -/
theorem decodeUser_carried (members : List (String × JSON)) (e n : String)
    (he : carries members .Email e) (hn : carries members .Name n) :
    decodeUser (.ok (.object members)) = .ok { Email := e, Name := n } := by
  obtain ⟨hexe, hae⟩ := he
  obtain ⟨hexn, han⟩ := hn
  have herr : (decodeMembers members { Email := "", Name := "" } none).2 = none := by
    apply decodeMembers_no_error
    intro m hm f hf
    cases f with
    | Email => exact ⟨e, hae m hm hf⟩
    | Name => exact ⟨n, han m hm hf⟩
  have h1 := decodeMembers_get .Email e members hexe hae { Email := "", Name := "" } none
  have h2 := decodeMembers_get .Name n members hexn han { Email := "", Name := "" } none
  rcases hr : decodeMembers members { Email := "", Name := "" } none with ⟨⟨ue, un⟩, saved⟩
  rw [hr] at herr h1 h2
  simp only [User.get] at h1 h2
  simp only at herr
  subst herr h1 h2
  simp [decodeUser, unmarshalUser, hr]

/-- The function `getUser` when `http.Get` fails. -/
theorem getUser_transport_error (httpGet : HTTPGet) (id : Int) (msg : String)
    (h : httpGet (userURL id) = .error msg) :
    getUser httpGet id = (.error (.other msg), [userURL id]) := by
  unfold userURL at h
  simp [getUser, h, userURL]

/-- The function `getUser` when the upstream status is 404. -/
theorem getUser_not_found (httpGet : HTTPGet) (id : Int) (resp : UpstreamResponse)
    (h : httpGet (userURL id) = .ok resp) (h404 : resp.StatusCode = 404) :
    getUser httpGet id = (.error .errUserNotFound, [userURL id]) := by
  unfold userURL at h
  simp [getUser, h, h404, userURL]

/-- The function `getUser` when the body does not decode. -/
theorem getUser_decode_error (httpGet : HTTPGet) (id : Int) (resp : UpstreamResponse)
    (err : GoError)
    (h : httpGet (userURL id) = .ok resp) (h404 : resp.StatusCode ≠ 404)
    (hd : decodeUser resp.Body = .error err) :
    getUser httpGet id = (.error err, [userURL id]) := by
  unfold userURL at h
  simp [getUser, h, h404, hd, userURL]

/-- The function `getUser` when the body decodes. -/
theorem getUser_decoded (httpGet : HTTPGet) (id : Int) (resp : UpstreamResponse) (u : User)
    (h : httpGet (userURL id) = .ok resp) (h404 : resp.StatusCode ≠ 404)
    (hd : decodeUser resp.Body = .ok u) :
    getUser httpGet id = (.ok u, [userURL id]) := by
  unfold userURL at h
  simp [getUser, h, h404, hd, userURL]

/-! ### The request `GET /users/{id}` yields `id`

`fmt.Sprintf("%d", id)` is `toString id`; parsing the last element of
`/users/` followed by that text gives back `id`, for every `id` of the 64-bit
range. -/

/-- A decimal digit character: its range, its value, and what it is not. -/
theorem digitChar_decimal (m : Nat) (h : m < 10) :
    '0' ≤ Nat.digitChar m ∧ Nat.digitChar m ≤ '9' ∧
    (Nat.digitChar m).toNat - '0'.toNat = m ∧
    Nat.digitChar m ≠ '/' ∧ Nat.digitChar m ≠ '+' ∧ Nat.digitChar m ≠ '-' := by
  interval_cases m <;> decide

/-- Parsing the digits written for `n` continues from the value `n`. -/
theorem parseUintLoop_toDigitsCore (fuel : Nat) :
    ∀ (n : Nat) (ds : List Char), n < fuel → n ≤ maxUint64 →
      parseUintLoop (Nat.toDigitsCore 10 fuel n ds) 0 = parseUintLoop ds n := by
  induction fuel with
  | zero => intro n ds h; omega
  | succ fuel ih =>
    intro n ds hn hmax
    have hmod : n % 10 < 10 := Nat.mod_lt _ (by decide)
    obtain ⟨hd0, hd9, hdv, -, -, -⟩ := digitChar_decimal (n % 10) hmod
    have hmax' : n ≤ 18446744073709551615 := by simpa [maxUint64] using hmax
    have hstep : ∀ acc, acc * 10 + n % 10 = n → acc < 1844674407370955162 →
        parseUintLoop (Nat.digitChar (n % 10) :: ds) acc = parseUintLoop ds n := by
      intro acc hacc hlt
      simp only [parseUintLoop, hd0, hd9, and_self, if_true, hdv, hacc]
      have h1 : ¬ (acc ≥ maxUint64 / 10 + 1) := by
        simp only [maxUint64]; omega
      have h2 : ¬ (n > maxUint64) := by omega
      simp [h1, h2]
    unfold Nat.toDigitsCore
    by_cases hz : n / 10 = 0
    · simp only [hz, if_true]
      exact hstep 0 (by omega) (by omega)
    · simp only [hz, if_false]
      rw [ih (n / 10) _ (by omega) (by omega)]
      exact hstep (n / 10) (by omega) (by omega)

/-- The digits written hold no slash and no sign. -/
theorem toDigitsCore_chars (fuel : Nat) :
    ∀ (n : Nat) (ds : List Char) (c : Char), c ∈ Nat.toDigitsCore 10 fuel n ds →
      c ∈ ds ∨ (c ≠ '/' ∧ c ≠ '+' ∧ c ≠ '-') := by
  induction fuel with
  | zero => intro n ds c h; left; simpa [Nat.toDigitsCore] using h
  | succ fuel ih =>
    intro n ds c h
    obtain ⟨-, -, -, h1, h2, h3⟩ := digitChar_decimal (n % 10) (Nat.mod_lt _ (by decide))
    unfold Nat.toDigitsCore at h
    by_cases hz : n / 10 = 0
    · simp only [hz, if_true, List.mem_cons] at h
      rcases h with h | h
      · subst h; exact Or.inr ⟨h1, h2, h3⟩
      · exact Or.inl h
    · simp only [hz, if_false] at h
      rcases ih _ _ c h with h | h
      · rcases List.mem_cons.mp h with h | h
        · subst h; exact Or.inr ⟨h1, h2, h3⟩
        · exact Or.inl h
      · exact Or.inr h

/-- At least one digit is written. -/
theorem toDigitsCore_ne_nil (fuel : Nat) :
    ∀ (n : Nat) (ds : List Char), ds ≠ [] ∨ 0 < fuel → Nat.toDigitsCore 10 fuel n ds ≠ [] := by
  induction fuel with
  | zero =>
    intro n ds h
    rcases h with h | h
    · simpa [Nat.toDigitsCore] using h
    · omega
  | succ fuel ih =>
    intro n ds _
    unfold Nat.toDigitsCore
    by_cases hz : n / 10 = 0
    · simp [hz]
    · simp only [hz, if_false]
      exact ih _ _ (Or.inl (by simp))

/-- The last element of `/users/` followed by a non-empty text without slash is that text. -/
theorem Base_users_element (cs : List Char) (hne : cs ≠ []) (hslash : ∀ c ∈ cs, c ≠ '/') :
    Base ("/users/" ++ String.mk cs) = String.mk cs := by
  have hd : ("/users/" ++ String.mk cs).data =
      '/' :: ('u' :: 's' :: 'e' :: 'r' :: 's' :: '/' :: cs) := by
    rw [String.data_append]; rfl
  have hrev : ('/' :: ('u' :: 's' :: 'e' :: 'r' :: 's' :: '/' :: cs)).reverse
      = cs.reverse ++ ['/', 's', 'r', 'e', 's', 'u', '/'] := by
    simp
  obtain ⟨c, rest, hcr⟩ : ∃ c rest, cs.reverse = c :: rest := by
    cases h : cs.reverse with
    | nil => exact absurd (List.reverse_eq_nil_iff.mp h) hne
    | cons c rest => exact ⟨c, rest, rfl⟩
  have hc : c ≠ '/' := hslash c (by
    have : c ∈ cs.reverse := by rw [hcr]; exact List.mem_cons_self _ _
    simpa using this)
  have hstrip : stripTrailingSlashes ('/' :: ('u' :: 's' :: 'e' :: 'r' :: 's' :: '/' :: cs))
      = '/' :: ('u' :: 's' :: 'e' :: 'r' :: 's' :: '/' :: cs) := by
    unfold stripTrailingSlashes
    rw [hrev, hcr, List.cons_append, List.dropWhile_cons_of_neg (by simpa using hc),
      ← List.cons_append, ← hcr, ← hrev, List.reverse_reverse]
  have hlast : afterLastSlash ('/' :: ('u' :: 's' :: 'e' :: 'r' :: 's' :: '/' :: cs)) = cs := by
    unfold afterLastSlash
    rw [hrev, List.takeWhile_append_of_pos (by
      intro a ha
      have : a ≠ '/' := hslash a (by simpa using ha)
      simpa using this)]
    simp
  unfold Base
  rw [hd]
  simp only [hstrip, hlast]

/-- The decimal text of an `int` parses back to it, is not empty and holds no slash. -/
theorem Atoi_toString (id : Int) (hlo : -2 ^ 63 ≤ id) (hhi : id < 2 ^ 63) :
    Atoi (toString id) = .ok id ∧
    ∃ cs, toString id = String.mk cs ∧ cs ≠ [] ∧ ∀ c ∈ cs, c ≠ '/' := by
  have hparse : ∀ m : Nat, m ≤ maxUint64 → ParseUint (Nat.toDigits 10 m) = .ok m := by
    intro m hm
    have hne : Nat.toDigits 10 m ≠ [] := toDigitsCore_ne_nil _ _ _ (Or.inr (Nat.succ_pos _))
    have hl := parseUintLoop_toDigitsCore (m + 1) m [] (Nat.lt_succ_self _) hm
    unfold ParseUint
    cases hds : Nat.toDigits 10 m with
    | nil => exact absurd hds hne
    | cons c rest =>
      simp only
      rw [← hds]
      simpa [Nat.toDigits, parseUintLoop] using hl
  have hchars : ∀ m : Nat, ∀ c ∈ Nat.toDigits 10 m, c ≠ '/' ∧ c ≠ '+' ∧ c ≠ '-' := by
    intro m c hc
    rcases toDigitsCore_chars _ _ _ c hc with h | h
    · cases h
    · exact h
  cases id with
  | ofNat m =>
    have hm : m < 2 ^ 63 := by
      have h : ((m : Nat) : Int) < 2 ^ 63 := hhi
      omega
    have hts : toString (Int.ofNat m) = String.mk (Nat.toDigits 10 m) := rfl
    have hne : Nat.toDigits 10 m ≠ [] := toDigitsCore_ne_nil _ _ _ (Or.inr (Nat.succ_pos _))
    refine ⟨?_, Nat.toDigits 10 m, hts, hne, fun c hc => (hchars m c hc).1⟩
    rw [hts]
    unfold Atoi ParseInt
    cases hds : Nat.toDigits 10 m with
    | nil => exact absurd hds hne
    | cons c rest =>
      have hc := hchars m c (by rw [hds]; exact List.mem_cons_self _ _)
      have hp := hparse m (by simp only [maxUint64]; omega)
      rw [hds] at hp
      have h1 : (c == '+') = false := by simpa using hc.2.1
      have h2 : (c == '-') = false := by simpa using hc.2.2
      simp only [h1, h2, Bool.false_eq_true, or_self, if_false, hp]
      simp only [ge_iff_le, Bool.false_eq_true, false_and, and_false, if_false]
      have h3 : ¬ ((2 : Nat) ^ 63 ≤ m) := by omega
      simp only [h3, if_false]
      rfl
  | negSucc m =>
    have hm : m + 1 ≤ 2 ^ 63 := by
      have : -(2:Int) ^ 63 ≤ -((m : Int) + 1) := by
        simpa [Int.negSucc_eq] using hlo
      omega
    have hts : toString (Int.negSucc m) = String.mk ('-' :: Nat.toDigits 10 (m + 1)) := rfl
    refine ⟨?_, '-' :: Nat.toDigits 10 (m + 1), hts, by simp, ?_⟩
    · rw [hts]
      unfold Atoi ParseInt
      have hp := hparse (m + 1) (by simp only [maxUint64]; omega)
      have h3 : ¬ (m + 1 > 2 ^ 63) := by omega
      simp only [hp, beq_self_eq_true, or_true, if_true, h3, and_false, if_false,
        not_true_eq_false, false_and]
      simp [Int.negSucc_eq]
    · intro c hc
      rcases List.mem_cons.mp hc with h | h
      · subst h; decide
      · exact (hchars (m + 1) c h).1

/-- The handler's id extraction on the request `GET /users/{id}` yields `id`, for
every `id` of the 64-bit range. -/
theorem request_for_id_parses (id : Int) (hlo : -2 ^ 63 ≤ id) (hhi : id < 2 ^ 63) :
    Atoi (Base (URL.String (requestFor "GET" ("/users/" ++ toString id)).URL)) = .ok id := by
  obtain ⟨hat, cs, hcs, hne, hsl⟩ := Atoi_toString id hlo hhi
  simp only [requestFor]
  rw [URL_String_users_path, hcs, Base_users_element cs hne hsl, ← hcs]
  exact hat

/-! ## Claims -/

/-- C1, as stated, fails: the suffix `abc/5` of `GET /users/abc/5` does not
parse as an integer, yet the handler takes the last path element `5`, calls
`getUser` with it and answers 200. -/
theorem C1_counterexample_last_element_taken :
    Atoi "abc/5" = .error .ErrSyntax ∧
    (serve upstreamA (requestFor "GET" ("/users/" ++ "abc/5"))).2 =
      ["https://jsonplaceholder.typicode.com/users/5"] ∧
    (serve upstreamA (requestFor "GET" ("/users/" ++ "abc/5"))).1.StatusCode = 200 := by
  refine ⟨by decide, by decide, by decide⟩

/-- C1, amended: for every `GET /users/{suffix}` whose URL is that path alone
and whose last path element (`path.Base`) does not parse as an integer, the
handler answers 404 with the envelope `Not Found` / 404 and fetches nothing
from the upstream. -/
theorem C1_unparsable_last_element_not_found (httpGet : HTTPGet) (suffix : String) (e : NumError)
    (h : Atoi (Base ("/users/" ++ suffix)) = .error e) :
    (serve httpGet (requestFor "GET" ("/users/" ++ suffix))).1.StatusCode = 404 ∧
    (serve httpGet (requestFor "GET" ("/users/" ++ suffix))).1.Body =
      [.object [("error", .string "Not Found"), ("status_code", .number "404")]] ∧
    (serve httpGet (requestFor "GET" ("/users/" ++ suffix))).2 = [] := by
  have hs : serve httpGet (requestFor "GET" ("/users/" ++ suffix)) =
      ((errResponse {} (errorsNew (StatusText 404)) 404).finish, []) := by
    simp [serve, userHandler, requestFor, URL_String_users_path, h]
  rw [hs, errResponse_fresh]
  refine ⟨rfl, ?_, rfl⟩
  simp [errorsNew, StatusText_404, GoError.Error, toString_404]

/-- C1 amended, at `GET /users/abc`. -/
theorem C1_unparsable_last_element_not_found_witness :
    Atoi (Base ("/users/" ++ "abc")) = .error .ErrSyntax ∧
    (serve upstreamA (requestFor "GET" ("/users/" ++ "abc"))).1.StatusCode = 404 ∧
    (serve upstreamA (requestFor "GET" ("/users/" ++ "abc"))).1.Body =
      [.object [("error", .string "Not Found"), ("status_code", .number "404")]] ∧
    (serve upstreamA (requestFor "GET" ("/users/" ++ "abc"))).2 = [] :=
  ⟨by decide, C1_unparsable_last_element_not_found upstreamA "abc" .ErrSyntax (by decide)⟩

/-- C2, as stated, fails: the upstream may answer status 404 with the JSON
object of a user; `GET /users/1` is then answered 404 `user not found`, not
200 with that user. -/
theorem C2_counterexample_upstream_404_with_user :
    upstream404WithUser (userURL 1) =
      .ok { StatusCode := 404,
            Body := .ok (.object [("email", .string "a@b.com"), ("name", .string "A")]) } ∧
    (serve upstream404WithUser (requestFor "GET" "/users/1")).1.StatusCode = 404 ∧
    (serve upstream404WithUser (requestFor "GET" "/users/1")).1.StatusCode ≠ 200 ∧
    (serve upstream404WithUser (requestFor "GET" "/users/1")).1.Header = [] := by
  refine ⟨rfl, by decide, by decide, by decide⟩

/-- C2, amended: for every GET request whose id parses as the integer `id`
and for which the upstream answers, with a status other than 404, a JSON
object carrying email `e` and name `n`, the handler responds with status 200,
the three CORS headers and `Content-Type: application/json`, and the body is
the JSON object with `email` = `e` and `name` = `n`. -/
theorem C2_user_relayed (httpGet : HTTPGet) (r : Request) (id status : Int)
    (members : List (String × JSON)) (e n : String)
    (hm : r.Method = "GET") (hid : Atoi (Base r.URL.String) = .ok id)
    (hup : httpGet (userURL id) = .ok { StatusCode := status, Body := .ok (.object members) })
    (hs : status ≠ 404)
    (he : carries members .Email e) (hn : carries members .Name n) :
    (serve httpGet r).1.StatusCode = 200 ∧
    (serve httpGet r).1.Header =
      [("Access-Control-Allow-Origin", "*"),
       ("Access-Control-Allow-Methods", "GET, OPTIONS"),
       ("Access-Control-Allow-Headers", "Accept, Accept-Encoding, Content-Type, Content-Length"),
       ("Content-Type", "application/json")] ∧
    (serve httpGet r).1.Body = [.object [("email", .string e), ("name", .string n)]] := by
  have hg := getUser_decoded httpGet id _ { Email := e, Name := n } hup hs
    (decodeUser_carried members e n he hn)
  rw [serve_get_user httpGet r id _ _ hm hid hg]
  simp [corsHeaders, User.toJSON]

/-- C2 amended, at `GET /users/1` with the upstream answering 200 and user `A`. -/
theorem C2_user_relayed_witness :
    (requestFor "GET" "/users/1").Method = "GET" ∧
    Atoi (Base (requestFor "GET" "/users/1").URL.String) = .ok 1 ∧
    upstreamA (userURL 1) =
      .ok { StatusCode := 200,
            Body := .ok (.object [("email", .string "a@b.com"), ("name", .string "A")]) } ∧
    (200 : Int) ≠ 404 ∧
    carries [("email", .string "a@b.com"), ("name", .string "A")] .Email "a@b.com" ∧
    carries [("email", .string "a@b.com"), ("name", .string "A")] .Name "A" ∧
    (serve upstreamA (requestFor "GET" "/users/1")).1.StatusCode = 200 ∧
    (serve upstreamA (requestFor "GET" "/users/1")).1.Header =
      [("Access-Control-Allow-Origin", "*"),
       ("Access-Control-Allow-Methods", "GET, OPTIONS"),
       ("Access-Control-Allow-Headers", "Accept, Accept-Encoding, Content-Type, Content-Length"),
       ("Content-Type", "application/json")] ∧
    (serve upstreamA (requestFor "GET" "/users/1")).1.Body =
      [.object [("email", .string "a@b.com"), ("name", .string "A")]] :=
  have hcE : carries [("email", .string "a@b.com"), ("name", .string "A")] .Email "a@b.com" := by
    refine ⟨⟨("email", .string "a@b.com"), by simp, by decide⟩, ?_⟩
    intro m hm hf
    simp only [List.mem_cons, List.mem_singleton, List.not_mem_nil, or_false] at hm
    rcases hm with h | h
    · subst h; rfl
    · subst h; exact absurd hf (by decide)
  have hcN : carries [("email", .string "a@b.com"), ("name", .string "A")] .Name "A" := by
    refine ⟨⟨("name", .string "A"), by simp, by decide⟩, ?_⟩
    intro m hm hf
    simp only [List.mem_cons, List.mem_singleton, List.not_mem_nil, or_false] at hm
    rcases hm with h | h
    · subst h; exact absurd hf (by decide)
    · subst h; rfl
  ⟨by decide, by decide, rfl, by decide, hcE, hcN,
    C2_user_relayed upstreamA (requestFor "GET" "/users/1") 1 200 _ "a@b.com" "A"
      (by decide) (by decide) rfl (by decide) hcE hcN⟩

/-- C3: for every GET request whose id parses as the integer `id` and for
which the upstream responds with status 404, whatever its body, `getUser`
returns `errUserNotFound` and the handler responds with status 404 and the
envelope `user not found` / 404. -/
theorem C3_upstream_404_user_not_found (httpGet : HTTPGet) (r : Request) (id : Int)
    (resp : UpstreamResponse)
    (hm : r.Method = "GET") (hid : Atoi (Base r.URL.String) = .ok id)
    (hup : httpGet (userURL id) = .ok resp) (h404 : resp.StatusCode = 404) :
    (getUser httpGet id).1 = .error .errUserNotFound ∧
    (serve httpGet r).1.StatusCode = 404 ∧
    (serve httpGet r).1.Body =
      [.object [("error", .string "user not found"), ("status_code", .number "404")]] := by
  have hg := getUser_not_found httpGet id resp hup h404
  rw [serve_get_lookup_error httpGet r id _ _ hm hid hg, errResponse_fresh, hg]
  simp [GoError.Error, toString_404]

/-- C3 at `GET /users/999999` with the upstream answering 404. -/
theorem C3_upstream_404_user_not_found_witness :
    (requestFor "GET" "/users/999999").Method = "GET" ∧
    Atoi (Base (requestFor "GET" "/users/999999").URL.String) = .ok 999999 ∧
    upstream404 (userURL 999999) = .ok { StatusCode := 404, Body := .ok (.object []) } ∧
    (getUser upstream404 999999).1 = .error .errUserNotFound ∧
    (serve upstream404 (requestFor "GET" "/users/999999")).1.StatusCode = 404 ∧
    (serve upstream404 (requestFor "GET" "/users/999999")).1.Body =
      [.object [("error", .string "user not found"), ("status_code", .number "404")]] :=
  ⟨by decide, by decide, rfl,
    C3_upstream_404_user_not_found upstream404 (requestFor "GET" "/users/999999") 999999
      { StatusCode := 404, Body := .ok (.object []) } (by decide) (by decide) rfl rfl⟩

/-- C4: for every GET request whose id parses as the integer `id`, when the
upstream call fails with a transport error, or the upstream answers with a
status other than 404 and its body fails to decode as a `User`, the handler
responds with status 500 and the envelope whose `status_code` is 500 and whose
`error` is the message `msg` of that error. -/
theorem C4_upstream_failure_500 (httpGet : HTTPGet) (r : Request) (id : Int) (msg : String)
    (hm : r.Method = "GET") (hid : Atoi (Base r.URL.String) = .ok id)
    (hfail : httpGet (userURL id) = .error msg ∨
      ∃ resp err, httpGet (userURL id) = .ok resp ∧ resp.StatusCode ≠ 404 ∧
        decodeUser resp.Body = .error err ∧ err.Error = msg) :
    (serve httpGet r).1.StatusCode = 500 ∧
    (serve httpGet r).1.Body =
      [.object [("error", .string msg), ("status_code", .number "500")]] := by
  have h500 : toString (500 : Int) = "500" := by rfl
  rcases hfail with ht | ⟨resp, err, hup, hs, hd, hmsg⟩
  · have hg := getUser_transport_error httpGet id msg ht
    rw [serve_get_lookup_error httpGet r id _ _ hm hid hg, errResponse_fresh]
    simp [GoError.Error, h500]
  · have hg := getUser_decode_error httpGet id resp err hup hs hd
    have hne : err ≠ .errUserNotFound := decodeUser_error_other _ _ hd
    rw [serve_get_lookup_error httpGet r id _ _ hm hid hg, errResponse_fresh]
    simp [hne, hmsg, h500]

/-- C4 at `GET /users/5` with the upstream unreachable. -/
theorem C4_upstream_failure_500_witness :
    (requestFor "GET" "/users/5").Method = "GET" ∧
    Atoi (Base (requestFor "GET" "/users/5").URL.String) = .ok 5 ∧
    upstreamDown (userURL 5) = .error "dial tcp: connection refused" ∧
    (serve upstreamDown (requestFor "GET" "/users/5")).1.StatusCode = 500 ∧
    (serve upstreamDown (requestFor "GET" "/users/5")).1.Body =
      [.object [("error", .string "dial tcp: connection refused"),
                ("status_code", .number "500")]] :=
  ⟨by decide, by decide, rfl,
    C4_upstream_failure_500 upstreamDown (requestFor "GET" "/users/5") 5
      "dial tcp: connection refused" (by decide) (by decide) (Or.inl rfl)⟩

/-- C5: a request whose method is neither GET nor OPTIONS is answered with
status 405 and the envelope `Method Not Allowed` / 405, whatever its URL, and
nothing is fetched from the upstream. -/
theorem C5_other_method_not_allowed (httpGet : HTTPGet) (r : Request)
    (h1 : r.Method ≠ "GET") (h2 : r.Method ≠ "OPTIONS") :
    (serve httpGet r).1.StatusCode = 405 ∧
    (serve httpGet r).1.Body =
      [.object [("error", .string "Method Not Allowed"), ("status_code", .number "405")]] ∧
    (serve httpGet r).2 = [] := by
  rw [serve_other_method httpGet r h1 h2, errResponse_fresh]
  refine ⟨rfl, ?_, rfl⟩
  have h405 : toString (405 : Int) = "405" := by rfl
  simp [errorsNew, GoError.Error, h405]

/-- C5 at `PUT /users/1`. -/
theorem C5_other_method_not_allowed_witness :
    (requestFor "PUT" "/users/1").Method ≠ "GET" ∧
    (requestFor "PUT" "/users/1").Method ≠ "OPTIONS" ∧
    (serve upstreamA (requestFor "PUT" "/users/1")).1.StatusCode = 405 ∧
    (serve upstreamA (requestFor "PUT" "/users/1")).1.Body =
      [.object [("error", .string "Method Not Allowed"), ("status_code", .number "405")]] ∧
    (serve upstreamA (requestFor "PUT" "/users/1")).2 = [] :=
  ⟨by decide, by decide,
    C5_other_method_not_allowed upstreamA (requestFor "PUT" "/users/1") (by decide) (by decide)⟩

/-- C6: an OPTIONS request, whatever its URL and whatever the upstream would
answer, leaves the handler without a status written, so the response has
status 200; its body is empty, its headers are exactly the three CORS
headers, and nothing is fetched from the upstream. -/
theorem C6_options_preflight (httpGet : HTTPGet) (r : Request) (h : r.Method = "OPTIONS") :
    (userHandler httpGet {} r).1.wroteHeader = false ∧
    (serve httpGet r).1.StatusCode = 200 ∧
    (serve httpGet r).1.Body = [] ∧
    (serve httpGet r).1.Header =
      [("Access-Control-Allow-Origin", "*"),
       ("Access-Control-Allow-Methods", "GET, OPTIONS"),
       ("Access-Control-Allow-Headers", "Accept, Accept-Encoding, Content-Type, Content-Length")] ∧
    (serve httpGet r).2 = [] := by
  simp [serve, userHandler_options httpGet r h, ResponseWriter.finish, corsHeaders]

/-- C6 at `OPTIONS /users/anything`. -/
theorem C6_options_preflight_witness :
    (requestFor "OPTIONS" "/users/anything").Method = "OPTIONS" ∧
    (userHandler upstreamA {} (requestFor "OPTIONS" "/users/anything")).1.wroteHeader = false ∧
    (serve upstreamA (requestFor "OPTIONS" "/users/anything")).1.StatusCode = 200 ∧
    (serve upstreamA (requestFor "OPTIONS" "/users/anything")).1.Body = [] ∧
    (serve upstreamA (requestFor "OPTIONS" "/users/anything")).1.Header =
      [("Access-Control-Allow-Origin", "*"),
       ("Access-Control-Allow-Methods", "GET, OPTIONS"),
       ("Access-Control-Allow-Headers", "Accept, Accept-Encoding, Content-Type, Content-Length")] ∧
    (serve upstreamA (requestFor "OPTIONS" "/users/anything")).2 = [] :=
  ⟨by decide, C6_options_preflight upstreamA (requestFor "OPTIONS" "/users/anything") (by decide)⟩

/-- C7, at the failing input `GET /users/1?x=y`: the handler parses the last
element of the whole URL string, here `1?x=y`, which is no integer; whatever
the upstream, it answers 404 `Not Found` and fetches nothing, where the claim
has it look up user 1, as the handler does for `GET /users/1`. -/
theorem C7_query_string_breaks_id (httpGet : HTTPGet) :
    (serve upstreamA (requestFor "GET" "/users/1")).2 =
      ["https://jsonplaceholder.typicode.com/users/1"] ∧
    Base (URL.String getUser1WithQuery.URL) = "1?x=y" ∧
    Atoi "1?x=y" = .error .ErrSyntax ∧
    (serve httpGet getUser1WithQuery).1.StatusCode = 404 ∧
    (serve httpGet getUser1WithQuery).1.Body =
      [.object [("error", .string "Not Found"), ("status_code", .number "404")]] ∧
    (serve httpGet getUser1WithQuery).2 = [] := by
  have hb : Base (URL.String getUser1WithQuery.URL) = "1?x=y" := by decide
  have ha : Atoi "1?x=y" = .error .ErrSyntax := by decide
  refine ⟨by decide, hb, ha, ?_⟩
  rw [serve_get_unparsable httpGet _ .ErrSyntax rfl (by rw [hb]; exact ha), errResponse_fresh]
  refine ⟨rfl, ?_, rfl⟩
  simp [errorsNew, GoError.Error, toString_404]

/-- C8, at every failure response: `errResponse` on a fresh writer sends the
status and the envelope with that status, but it sets `Content-Type` in the
header map after `WriteHeader`, so the response carries no header at all;
`PUT /users/1` is such a failure. -/
theorem C8_content_type_set_after_header (httpGet : HTTPGet) (e : GoError) (code : Int) :
    (errResponse {} e code).finish.StatusCode = code ∧
    (errResponse {} e code).finish.Body =
      [.object [("error", .string e.Error), ("status_code", .number (toString code))]] ∧
    (errResponse {} e code).header = [("Content-Type", "application/json")] ∧
    (errResponse {} e code).finish.Header = [] ∧
    (serve httpGet (requestFor "PUT" "/users/1")).1.StatusCode = 405 ∧
    (serve httpGet (requestFor "PUT" "/users/1")).1.Header = [] := by
  have hp : serve httpGet (requestFor "PUT" "/users/1") =
      ((errResponse {} (errorsNew "Method Not Allowed") 405).finish, []) :=
    serve_other_method httpGet _ (by decide) (by decide)
  rw [hp, errResponse_fresh, errResponse_fresh]
  simp [errResponse, ResponseWriter.WriteHeader, ResponseWriter.SetHeader,
    ResponseWriter.Encode, headerSet]

/-- C9: for every request and every upstream, the response carries the three
CORS headers exactly when the method is OPTIONS or the request is a GET that
ends in the 200 response; a response carries a header under a CORS key only
when it carries all three; and no response written by `errResponse` carries
a header under a CORS key. -/
theorem C9_cors_on_options_and_success_only (httpGet : HTTPGet) (r : Request) :
    (carriesCORS (serve httpGet r).1.Header ↔
      (r.Method = "OPTIONS" ∨ (r.Method = "GET" ∧ (serve httpGet r).1.StatusCode = 200))) ∧
    (carriesSomeCORS (serve httpGet r).1.Header ↔ carriesCORS (serve httpGet r).1.Header) ∧
    (∀ (e : GoError) (code : Int), ¬ carriesSomeCORS (errResponse {} e code).finish.Header) := by
  have hnil : ¬ carriesCORS [] := by
    intro h
    have := h ("Access-Control-Allow-Origin", "*") (by simp [corsHeaders])
    cases this
  have hsome_nil : ¬ carriesSomeCORS [] := by
    rintro ⟨kv, hkv, _⟩
    cases hkv
  have hall : carriesCORS corsHeaders := fun kv hkv => hkv
  have hall2 : carriesCORS (corsHeaders ++ [("Content-Type", "application/json")]) :=
    fun kv hkv => List.mem_append_left _ hkv
  have hsome : carriesSomeCORS corsHeaders :=
    ⟨("Access-Control-Allow-Origin", "*"), by simp [corsHeaders], by simp [corsHeaders]⟩
  have hsome2 : carriesSomeCORS (corsHeaders ++ [("Content-Type", "application/json")]) :=
    ⟨("Access-Control-Allow-Origin", "*"), by simp [corsHeaders], by simp [corsHeaders]⟩
  have herr : ∀ (e : GoError) (code : Int),
      ¬ carriesSomeCORS (errResponse {} e code).finish.Header := by
    intro e code
    rw [errResponse_fresh]
    exact hsome_nil
  refine ⟨?_, ?_, herr⟩
  all_goals
    by_cases hget : r.Method = "GET"
    · cases hid : Atoi (Base r.URL.String) with
      | error e =>
        rw [serve_get_unparsable httpGet r e hget hid, errResponse_fresh]
        simp [hget, hnil, hsome_nil]
      | ok id =>
        rcases hg : getUser httpGet id with ⟨_ | u, fetched⟩
        · rename_i err
          rw [serve_get_lookup_error httpGet r id err fetched hget hid hg, errResponse_fresh]
          by_cases hnf : err = .errUserNotFound <;> simp [hget, hnil, hsome_nil, hnf]
        · rw [serve_get_user httpGet r id u fetched hget hid hg]
          simp [hget, hall2, hsome2]
    · by_cases hopt : r.Method = "OPTIONS"
      · simp [serve, userHandler_options httpGet r hopt, ResponseWriter.finish, hopt, hall, hsome]
      · rw [serve_other_method httpGet r hget hopt, errResponse_fresh]
        simp [hget, hopt, hnil, hsome_nil]

/-- C10: for every GET request whose id parses as the integer `id`, when the
upstream answers with any status other than 404 and its body decodes as the
`User` `u`, `getUser` returns `u` without error and the handler answers 200
with `u` as body; and when that body is an object in which no member names a
field, the field comes back empty. -/
theorem C10_only_404_inspected (httpGet : HTTPGet) (r : Request) (id : Int)
    (resp : UpstreamResponse) (u : User)
    (hm : r.Method = "GET") (hid : Atoi (Base r.URL.String) = .ok id)
    (hup : httpGet (userURL id) = .ok resp) (hs : resp.StatusCode ≠ 404)
    (hd : decodeUser resp.Body = .ok u) :
    (getUser httpGet id).1 = .ok u ∧
    (serve httpGet r).1.StatusCode = 200 ∧
    (serve httpGet r).1.Body =
      [.object [("email", .string u.Email), ("name", .string u.Name)]] ∧
    (∀ (members : List (String × JSON)) (f : Field),
      resp.Body = .ok (.object members) → (∀ m ∈ members, fieldOf m.1 ≠ some f) →
      u.get f = "") := by
  have hg := getUser_decoded httpGet id resp u hup hs hd
  rw [serve_get_user httpGet r id u _ hm hid hg, hg]
  refine ⟨rfl, rfl, rfl, ?_⟩
  intro members f hb hno
  rw [hb] at hd
  have hkeep := decodeMembers_unnamed f members { Email := "", Name := "" } none hno
  simp only [decodeUser, unmarshalUser] at hd
  rcases hr : decodeMembers members { Email := "", Name := "" } none with ⟨u1, _ | e1⟩
  · rw [hr] at hd hkeep
    simp only [Except.ok.injEq] at hd
    subst hd
    rw [hkeep]
    cases f <;> rfl
  · rw [hr] at hd
    simp at hd

/-- C10 at `GET /users/7` with the upstream answering 500 and an object without email. -/
theorem C10_only_404_inspected_witness :
    (requestFor "GET" "/users/7").Method = "GET" ∧
    Atoi (Base (requestFor "GET" "/users/7").URL.String) = .ok 7 ∧
    upstream500NameOnly (userURL 7) =
      .ok { StatusCode := 500,
            Body := .ok (.object [("id", .number "7"), ("name", .string "A")]) } ∧
    (500 : Int) ≠ 404 ∧
    decodeUser (.ok (.object [("id", .number "7"), ("name", .string "A")])) =
      .ok { Email := "", Name := "A" } ∧
    (getUser upstream500NameOnly 7).1 = .ok { Email := "", Name := "A" } ∧
    (serve upstream500NameOnly (requestFor "GET" "/users/7")).1.StatusCode = 200 ∧
    (serve upstream500NameOnly (requestFor "GET" "/users/7")).1.Body =
      [.object [("email", .string ""), ("name", .string "A")]] :=
  have h := C10_only_404_inspected upstream500NameOnly (requestFor "GET" "/users/7") 7
    { StatusCode := 500, Body := .ok (.object [("id", .number "7"), ("name", .string "A")]) }
    { Email := "", Name := "A" } (by decide) (by decide) rfl (by decide) (by decide)
  ⟨by decide, by decide, rfl, by decide, by decide, h.1, h.2.1, h.2.2.1⟩

end SimpleProxy
